import Mathlib

/-
  Verification of the riven orchestration core against its source.

  Shallow embedding of:
  - src/src/program/downloaders/realdebrid.py  (RealDebridDownloader)
  - src/src/program/services/scrapers/zilean.py and src/src/program/scrapers/zilean.py
  - src/src/program/services/scrapers/sharewood.py and xthor.py
  - src/src/program/types.py (Event)
  - the RateLimiter of section 4.1 of the spec (its implementation is not in src)

  Network interactions are modelled as oracles: a function or list giving the
  outcome of each HTTP request the code performs, in order. Python exceptions
  are modelled with explicit outcome constructors or Except; the embedded
  functions are total Lean functions.
-/

namespace Riven

/- ## Real-Debrid downloader (src/src/program/downloaders/realdebrid.py) -/

/-- One file record inside an availability container (the code reads only the
filename field of each value of the container dict). -/
structure RDFile where
  filename : String
deriving DecidableEq

/-- A container from torrents/instantAvailability: the list of values of the
container dict (file id to file record); len(container) is its length. -/
abbrev Container := List RDFile

/-- The check from line 175 of realdebrid.py: the lowercased filename contains
the substring sample. -/
def sampleIn (s : String) : Bool :=
  s.toLower.containsSubstr "sample".toSubstring

/-- Embeds RealDebridDownloader.contains_valid_video_files (lines 171-179):
every file of the container has, for some known video extension, a filename
ending with that extension and not containing sample case-insensitively.
VIDEO_EXTENSIONS lives in downloaders/shared.py which is not part of src, so
the extension list is a parameter. -/
def contains_valid_video_files (videoExtensions : List String) (container : Container) : Bool :=
  container.all fun file =>
    videoExtensions.any fun ext =>
      file.filename.endsWith ext && !(sampleIn file.filename)

/-- Embeds RealDebridDownloader.filter_valid_containers (lines 163-169):
keep the containers passing the predicate, sorted by length descending.
Python sorted with key=len, reverse=True is a stable sort under the total
preorder comparing lengths descending, and any stable sort produces the same
list, so the structural insertionSort is used. -/
def filter_valid_containers (videoExtensions : List String)
    (containers : List Container) : List Container :=
  (containers.filter fun c => contains_valid_video_files videoExtensions c).insertionSort
    fun a b => b.length ≤ a.length

/-- One JSON value of the availability response dict: a list (the empty-marker
shape), a dict with or without an rd key, or any other JSON value. -/
inductive RDData
  | lst
  | dct (rd : Option (List Container))
  | other
deriving DecidableEq

/-- Outcome of one attempt of the availability request: the request raised, the
JSON body was not a dict, or it was a dict with the given entries. -/
inductive RDAttempt
  | exc
  | nonDict
  | dict (entries : List (String × RDData))
deriving DecidableEq

/-- Line 143 of realdebrid.py: all values of the response dict are lists. -/
def isEmptyResponse (entries : List (String × RDData)) : Bool :=
  entries.all fun e =>
    match e.2 with
    | .lst => true
    | _ => false

/-- The dict comprehension of lines 148-152: keep entries whose value is a dict
having an rd key, and filter its containers. -/
def availabilityResult (videoExtensions : List String)
    (entries : List (String × RDData)) : List (String × List Container) :=
  entries.filterMap fun e =>
    match e.2 with
    | .dct (some rd) => some (e.1, filter_valid_containers videoExtensions rd)
    | _ => none

/-- Observable outcome of get_instant_availability: how many RETRY_DELAY
sleeps were performed, how many requests were issued, and the returned dict. -/
structure GIAResult where
  sleeps : Nat
  requests : Nat
  result : List (String × List Container)
deriving DecidableEq

def MAX_RETRIES : Nat := 3

def RETRY_DELAY : Nat := 1

/-- The retry loop of get_instant_availability (lines 131-161), by recursion on
the number of remaining attempts; idx is the index of the current attempt and
the oracle gives the outcome of each attempt.
- a raised exception is caught, the loop sleeps unless this was the final
  attempt, and continues (lines 154-158);
- a non-dict response returns an empty dict at once (lines 139-140);
- an all-lists dict sleeps and continues (lines 143-146);
- any other dict response is filtered and returned (lines 148-152);
- when the attempts are exhausted the function returns an empty dict
  (line 161). -/
def giaLoop (videoExtensions : List String) (oracle : Nat → RDAttempt) :
    Nat → Nat → GIAResult
  | 0, _ => ⟨0, 0, []⟩
  | remaining + 1, idx =>
    match oracle idx with
    | .exc =>
      let rest := giaLoop videoExtensions oracle remaining (idx + 1)
      ⟨(if remaining > 0 then RETRY_DELAY else 0) + rest.sleeps, 1 + rest.requests, rest.result⟩
    | .nonDict => ⟨0, 1, []⟩
    | .dict entries =>
      if isEmptyResponse entries then
        let rest := giaLoop videoExtensions oracle remaining (idx + 1)
        ⟨RETRY_DELAY + rest.sleeps, 1 + rest.requests, rest.result⟩
      else
        ⟨0, 1, availabilityResult videoExtensions entries⟩

/-- Embeds RealDebridDownloader.get_instant_availability (lines 125-161).
The method reads neither self.initialized nor the infohashes beyond building
the URL; both are kept as parameters to state exactly that. Its Python body
catches every exception, so the embedding returns a plain GIAResult. -/
def get_instant_availability (initialized : Bool) (videoExtensions : List String)
    (infohashes : List String) (oracle : Nat → RDAttempt) : GIAResult :=
  giaLoop videoExtensions oracle MAX_RETRIES 0

/-- Errors surfaced by the other four methods: the not-initialized guard, or an
exception re-raised from the API interaction (abstracted as a code). -/
inductive RDError
  | notInitialized
  | api (e : Nat)
deriving DecidableEq

/-- Embeds RealDebridDownloader.add_torrent (lines 181-199): raises when not
initialized, otherwise returns the id of the API response or re-raises the
exception of the API interaction. -/
def add_torrent (initialized : Bool) (apiOutcome : Except Nat String) :
    Except RDError String :=
  if initialized then
    match apiOutcome with
    | .ok torrentId => .ok torrentId
    | .error e => .error (.api e)
  else
    .error .notInitialized

/-- Embeds RealDebridDownloader.select_files (lines 201-217). -/
def select_files (initialized : Bool) (torrentId : String) (files : List String)
    (apiOutcome : Except Nat Unit) : Except RDError Unit :=
  if initialized then
    match apiOutcome with
    | .ok _ => .ok ()
    | .error e => .error (.api e)
  else
    .error .notInitialized

/-- Payload of torrents/info, opaque to the control flow. -/
abbrev RDInfo := List (String × String)

/-- Embeds RealDebridDownloader.get_torrent_info (lines 219-231). -/
def get_torrent_info (initialized : Bool) (torrentId : String)
    (apiOutcome : Except Nat RDInfo) : Except RDError RDInfo :=
  if initialized then
    match apiOutcome with
    | .ok info => .ok info
    | .error e => .error (.api e)
  else
    .error .notInitialized

/-- Embeds RealDebridDownloader.delete_torrent (lines 233-246). -/
def delete_torrent (initialized : Bool) (torrentId : String)
    (apiOutcome : Except Nat Unit) : Except RDError Unit :=
  if initialized then
    match apiOutcome with
    | .ok _ => .ok ()
    | .error e => .error (.api e)
  else
    .error .notInitialized

/-- An attempt outcome that is an empty-but-structurally-valid response: a dict
all of whose values are lists. -/
def IsEmptyValidAttempt (a : RDAttempt) : Prop :=
  ∃ entries, a = RDAttempt.dict entries ∧ isEmptyResponse entries = true

/- ## Zilean scraper (src/src/program/services/scrapers/zilean.py; the file
src/src/program/scrapers/zilean.py holds a textually identical builder and
collection loop) -/

/-- One element of the results list of the provider response, after the
SimpleNamespace-to-dict conversion: either not a dict at all, or a dict whose
info_hash and raw_title fields are read with get (the empty string models a
missing or falsy field). -/
inductive ZEntry
  | notDict
  | entry (info_hash raw_title : String)
deriving DecidableEq

/-- Python dict assignment d[k] = v on an insertion-ordered dict with distinct
keys: replace the value in place when the key is present, else append. -/
def dictInsert : List (String × String) → String → String → List (String × String)
  | [], k, v => [(k, v)]
  | (k1, v1) :: rest, k, v =>
    if k1 = k then (k1, v) :: rest else (k1, v1) :: dictInsert rest k v

/-- Lookup of a key in a Python-style insertion-ordered dict. -/
def dictLookup : List (String × String) → String → Option String
  | [], _ => none
  | (k1, v1) :: rest, k => if k1 = k then some v1 else dictLookup rest k

/-- One iteration of the collection loop of Zilean.scrape (lines 97-104): skip
non-dict results and results with a falsy raw_title or info_hash, otherwise
assign torrents[info_hash] = raw_title. -/
def zileanStep (torrents : List (String × String)) (r : ZEntry) :
    List (String × String) :=
  match r with
  | .notDict => torrents
  | .entry ih rt => if rt = "" ∨ ih = "" then torrents else dictInsert torrents ih rt

/-- The whole collection loop of Zilean.scrape over the results list. -/
def zileanCollect (results : List ZEntry) : List (String × String) :=
  results.foldl zileanStep []

/-- The raw_title of the last valid results entry carrying the given hash, the
reference value for the amended first-seen/last-seen statement. -/
def lastSeenTitle (results : List ZEntry) (h : String) : Option String :=
  match results with
  | [] => none
  | r :: rest =>
    match lastSeenTitle rest h with
    | some t => some t
    | none =>
      match r with
      | .notDict => none
      | .entry ih rt =>
        if rt = "" ∨ ih = "" then none else if ih = h then some rt else none

/-- Payload of a scraper response: the results key is missing or not a list,
or it is a list of entries. -/
inductive ZResponseData
  | noResults
  | results (rs : List ZEntry)
deriving DecidableEq

/-- A scraper response as Zilean.scrape inspects it: either not is_ok or with
falsy data (lines 83-85), or carrying a payload. -/
inductive ZResponse
  | notOkOrEmpty
  | data (d : ZResponseData)
deriving DecidableEq

/-- Exceptions the request layer can raise into a run method. -/
inductive ZExc
  | rateLimitExceeded
  | other
deriving DecidableEq

/-- Embeds Zilean.scrape (lines 77-115) given the outcome of its single
request. -/
def zileanScrape : ZResponse → List (String × String)
  | .notOkOrEmpty => []
  | .data .noResults => []
  | .data (.results rs) => zileanCollect rs

/-- Embeds Zilean.run (lines 53-61): both the RateLimitExceeded handler and the
generic handler log and fall through to the final return of an empty dict. -/
def zileanRun (outcome : Except ZExc ZResponse) : List (String × String) :=
  match outcome with
  | .ok resp => zileanScrape resp
  | .error _ => []

/- ## Query parameter builder (Zilean.build_query_params, identical at
src/src/program/services/scrapers/zilean.py lines 63-75 and
src/src/program/scrapers/zilean.py lines 55-67) -/

/-- A media item as the builder discriminates it: isinstance checks against
Show, Season and Episode, everything else (a movie) falling through. Every
item carries a year attribute, possibly None; an episode knows its own number
and the number of its parent season. -/
inductive MediaItem
  | movie (topTitle : String) (year : Option Int)
  | show (topTitle : String) (year : Option Int)
  | season (number : Nat) (topTitle : String) (year : Option Int)
  | episode (number : Nat) (parentSeasonNumber : Nat) (topTitle : String) (year : Option Int)
deriving DecidableEq

/-- The params dict the builder produces: query is always set, year is always
set (item.year, possibly None), season and episode only by the branches. -/
structure ZileanParams where
  query : String
  year : Option Int
  season : Option Nat
  episode : Option Nat
deriving DecidableEq

/-- Embeds Zilean.build_query_params: a Show yields season=1, a Season its own
number, an Episode its parent season number plus its own number, and a movie
neither key. -/
def build_query_params : MediaItem → ZileanParams
  | .movie t y => ⟨t, y, none, none⟩
  | .show t y => ⟨t, y, some 1, none⟩
  | .season n t y => ⟨t, y, some n, none⟩
  | .episode n pn t y => ⟨t, y, some pn, some n⟩

/-- The builder of the second cited file, src/src/program/scrapers/zilean.py
lines 55-67, textually identical to the one above. -/
def build_query_params_legacy : MediaItem → ZileanParams :=
  build_query_params

/- ## Sharewood and Xthor scrapers
(src/src/program/services/scrapers/sharewood.py and xthor.py; the two scrape
methods are textually identical up to the passkey name and URL) -/

/-- Exceptions distinguished by the handlers of Sharewood.scrape. -/
inductive SWExc
  | rateLimitExceeded
  | connectTimeout
  | readTimeout
  | requestException
  | other
deriving DecidableEq

/-- A response as Sharewood.scrape inspects it: status code, the parsed
Retry-After header when present, the is_ok flag and the payload (none models
falsy response.data). -/
structure SWResponse where
  status_code : Nat
  retryAfter : Option Nat
  is_ok : Bool
  data : Option ZResponseData
deriving DecidableEq

/-- Outcome of one request issued by Sharewood.scrape. -/
inductive SWOutcome
  | raise (e : SWExc)
  | resp (r : SWResponse)
deriving DecidableEq

/-- Observable outcome of Sharewood.scrape: seconds slept, requests issued,
and the returned torrents dict. -/
structure SWScrapeOut where
  waited : Nat
  requests : Nat
  torrents : List (String × String)
deriving DecidableEq

/-- The collection loop of Sharewood.scrape (lines 124-130): unlike Zilean it
does not test isinstance dict, so a result that is neither SimpleNamespace nor
dict raises AttributeError at result.get, aborting the loop (the exception is
then caught by the generic handler of scrape). -/
def sharewoodCollect : List ZEntry → List (String × String) → Except Unit (List (String × String))
  | [], acc => .ok acc
  | .notDict :: _, _ => .error ()
  | .entry ih rt :: rest, acc =>
    sharewoodCollect rest (if rt = "" ∨ ih = "" then acc else dictInsert acc ih rt)

/-- Embeds Sharewood.scrape (lines 92-150) over the list of outcomes the world
produces for its successive requests, one outcome consumed per request; none
means the outcome list was exhausted while the code was still retrying.
- any exception raised by execute is caught by a handler and scrape returns an
  empty dict (lines 139-150);
- a 429 response makes scrape sleep int of the Retry-After header (30 when
  absent) and call itself again on the same query (lines 104-108), without any
  retry bound;
- a not-ok or falsy-data response returns an empty dict (lines 110-112);
- a response without a results list returns an empty dict (lines 120-122);
- otherwise the collection loop builds the dict; an AttributeError inside it
  is caught by the generic handler, returning an empty dict. -/
def sharewoodScrape : List SWOutcome → Option SWScrapeOut
  | [] => none
  | .raise _ :: _ => some ⟨0, 1, []⟩
  | .resp r :: rest =>
    if r.status_code = 429 then
      (sharewoodScrape rest).map fun s =>
        ⟨r.retryAfter.getD 30 + s.waited, 1 + s.requests, s.torrents⟩
    else if !r.is_ok then
      some ⟨0, 1, []⟩
    else
      match r.data with
      | none => some ⟨0, 1, []⟩
      | some .noResults => some ⟨0, 1, []⟩
      | some (.results rs) =>
        match sharewoodCollect rs [] with
        | .ok ts => some ⟨0, 1, ts⟩
        | .error _ => some ⟨0, 1, []⟩

/-- Embeds Xthor.scrape (xthor.py lines 92-150), textually identical to
Sharewood.scrape up to URL and passkey, which the embedding abstracts away. -/
def xthorScrape : List SWOutcome → Option SWScrapeOut :=
  sharewoodScrape

/-- Embeds Sharewood.run (lines 59-71). Its scrape already catches every
exception internally, so the two handlers of run (RateLimitExceeded, which
would fall off the function returning None, and the generic one returning an
empty dict) are unreachable, and run returns exactly the dict scrape built. -/
def sharewoodRun (outcomes : List SWOutcome) : Option (List (String × String)) :=
  (sharewoodScrape outcomes).map SWScrapeOut.torrents

/-- Claim C3 as stated: after a 429 the adapter retries the same query exactly
once before giving up for this pass, so a terminating scrape never issues more
than 2 requests. -/
def sharewoodRetriesOnceClaim : Prop :=
  ∀ outcomes out, sharewoodScrape outcomes = some out → out.requests ≤ 2

/- ## Event (src/src/program/types.py lines 40-44) -/

/-- The Event dataclass: emitted_by (a service reference, abstracted as a
name), item_id, and a run_at timestamp. -/
structure Event where
  emitted_by : String
  item_id : Int
  run_at : Nat
deriving DecidableEq

/-- Constructing an Event: run_at defaults to datetime.now() as evaluated ONCE
when the class statement ran (classDefRunAt); constructionTime is the clock at
the moment of the call and is never consulted by the default. -/
def eventMk (classDefRunAt : Nat) (emitted_by : String) (item_id : Int)
    (runAtArg : Option Nat) (constructionTime : Nat) : Event :=
  ⟨emitted_by, item_id, runAtArg.getD classDefRunAt⟩

/- ## RateLimiter -/

/-- Modelled from the spec: the RateLimiter implementation (utils/ratelimiter)
is not under src/. Section 4.1: a sliding window of max_calls per period with
an atomic check-and-increment; acquire at time t drops recorded calls that
aged out of the window and admits the call iff fewer than maxCalls remain.
Returns the new window and whether the call was admitted. -/
def rl_acquire (maxCalls period : Nat) (window : List Nat) (t : Nat) :
    List Nat × Bool :=
  let live := window.filter fun ts => t < ts + period
  if live.length < maxCalls then (live ++ [t], true) else (live, false)

/-- Modelled from the spec: a sequence of concurrent callers collapses, by the
required atomicity of check-and-increment, to an arbitrary interleaving, i.e.
an arbitrary list of call times processed sequentially; counts admissions. -/
def rl_admitted (maxCalls period : Nat) : List Nat → List Nat → Nat
  | _, [] => 0
  | window, t :: ts =>
    (if (rl_acquire maxCalls period window t).2 then 1 else 0) +
      rl_admitted maxCalls period (rl_acquire maxCalls period window t).1 ts

/- ## Theorems for the downloader claims -/

/-- C1: for every list of infohashes, the availability check retries an
empty-but-structurally-valid response up to the fixed bound of 3 attempts with
the fixed RETRY_DELAY between attempts, and after three consecutive empty valid
responses it returns an empty dict rather than raising: exactly 3 requests are
issued and the result is empty. -/
theorem c1_empty_valid_retried_three_times (initialized : Bool)
    (videoExtensions infohashes : List String) (oracle : Nat → RDAttempt)
    (h : ∀ i, i < 3 → IsEmptyValidAttempt (oracle i)) :
    get_instant_availability initialized videoExtensions infohashes oracle =
      ⟨3 * RETRY_DELAY, 3, []⟩ := by
  obtain ⟨e0, h0, he0⟩ := h 0 (by omega)
  obtain ⟨e1, h1, he1⟩ := h 1 (by omega)
  obtain ⟨e2, h2, he2⟩ := h 2 (by omega)
  simp [get_instant_availability, MAX_RETRIES, giaLoop, h0, h1, h2, he0, he1, he2,
    RETRY_DELAY]

/-- Witness for C1: three empty dict responses in a row yield 3 requests, 3
sleeps and an empty result. -/
theorem c1_empty_valid_retried_three_times_witness :
    get_instant_availability true [] ["h1"]
      (fun _ => RDAttempt.dict [("h1", RDData.lst)]) = ⟨3 * RETRY_DELAY, 3, []⟩ :=
  c1_empty_valid_retried_three_times true [] ["h1"] _
    (fun _ _ => ⟨[("h1", RDData.lst)], rfl, rfl⟩)

/-- Counterexample for C2: the claim says a hard error (an exception raised by
the provider request) is not retried at the availability step, yet after an
exception on the first attempt the code issues a second request and returns its
data: the request count is 2, not 1. -/
theorem c2_hard_error_is_retried_counterexample :
    get_instant_availability true [] ["h1"]
        (fun i => if i = 0 then RDAttempt.exc else RDAttempt.dict [("h1", RDData.dct (some []))]) =
      ⟨1, 2, [("h1", [])]⟩ ∧
    ¬ (get_instant_availability true [] ["h1"]
        (fun i => if i = 0 then RDAttempt.exc else RDAttempt.dict [("h1", RDData.dct (some []))])).requests ≤ 1 := by
  refine ⟨rfl, ?_⟩
  decide

/-- C2 amended: at the availability step hard errors are retried exactly like
empty valid responses, up to the same bound of 3 attempts (with the
inter-attempt delay skipped after the final attempt); after three consecutive
exceptions the call returns an empty dict and raises nothing. -/
theorem c2_hard_errors_also_retried (initialized : Bool)
    (videoExtensions infohashes : List String) (oracle : Nat → RDAttempt)
    (h : ∀ i, i < 3 → oracle i = RDAttempt.exc) :
    get_instant_availability initialized videoExtensions infohashes oracle =
      ⟨2 * RETRY_DELAY, 3, []⟩ := by
  have h0 := h 0 (by omega)
  have h1 := h 1 (by omega)
  have h2 := h 2 (by omega)
  simp [get_instant_availability, MAX_RETRIES, giaLoop, h0, h1, h2, RETRY_DELAY]

/-- Witness for the amended C2: three raising attempts in a row. -/
theorem c2_hard_errors_also_retried_witness :
    get_instant_availability true [] ["h1"] (fun _ => RDAttempt.exc) =
      ⟨2 * RETRY_DELAY, 3, []⟩ :=
  c2_hard_errors_also_retried true [] ["h1"] _ (fun _ _ => rfl)

/-- C10: add_torrent, select_files, get_torrent_info and delete_torrent all
raise RealDebridError when the downloader is not initialized, while
get_instant_availability never consults the initialized flag (its result is
the same for any value of the flag) and is total: even when every attempt
raises it returns an empty dict instead of propagating the exception. -/
theorem c10_availability_total_without_init_check (initialized : Bool)
    (videoExtensions infohashes : List String) (oracle : Nat → RDAttempt)
    (torrentId : String) (files : List String) (o1 : Except Nat String)
    (o2 : Except Nat Unit) (o3 : Except Nat RDInfo) (o4 : Except Nat Unit) :
    add_torrent false o1 = .error .notInitialized ∧
    select_files false torrentId files o2 = .error .notInitialized ∧
    get_torrent_info false torrentId o3 = .error .notInitialized ∧
    delete_torrent false torrentId o4 = .error .notInitialized ∧
    get_instant_availability initialized videoExtensions infohashes oracle =
      get_instant_availability true videoExtensions infohashes oracle ∧
    get_instant_availability initialized videoExtensions infohashes
        (fun _ => RDAttempt.exc) = ⟨2 * RETRY_DELAY, 3, []⟩ := by
  refine ⟨rfl, rfl, rfl, rfl, rfl, rfl⟩

/- ## Helper lemmas about dictInsert and the zilean collection loop -/

theorem dictLookup_dictInsert_self (d : List (String × String)) (k v : String) :
    dictLookup (dictInsert d k v) k = some v := by
  induction d with
  | nil => simp [dictInsert, dictLookup]
  | cons p rest ih =>
    obtain ⟨k1, v1⟩ := p
    by_cases hk : k1 = k
    · rw [dictInsert, if_pos hk, dictLookup, if_pos hk]
    · rw [dictInsert, if_neg hk, dictLookup, if_neg hk]
      exact ih

theorem dictLookup_dictInsert_ne (d : List (String × String)) (k v h : String)
    (hne : h ≠ k) : dictLookup (dictInsert d k v) h = dictLookup d h := by
  induction d with
  | nil => simp [dictInsert, dictLookup, Ne.symm hne]
  | cons p rest ih =>
    obtain ⟨k1, v1⟩ := p
    by_cases hk : k1 = k
    · have hk1h : ¬ k1 = h := by rw [hk]; exact Ne.symm hne
      rw [dictInsert, if_pos hk, dictLookup, if_neg hk1h, dictLookup, if_neg hk1h]
    · by_cases hk1h : k1 = h
      · rw [dictInsert, if_neg hk, dictLookup, if_pos hk1h, dictLookup, if_pos hk1h]
      · rw [dictInsert, if_neg hk, dictLookup, if_neg hk1h, dictLookup, if_neg hk1h]
        exact ih

theorem mem_keys_dictInsert (d : List (String × String)) (k v x : String)
    (hx : x ∈ (dictInsert d k v).map Prod.fst) :
    x ∈ d.map Prod.fst ∨ x = k := by
  induction d with
  | nil =>
    right
    simpa [dictInsert] using hx
  | cons p rest ih =>
    obtain ⟨k1, v1⟩ := p
    by_cases hk : k1 = k
    · rw [dictInsert, if_pos hk, List.map_cons] at hx
      rw [List.map_cons]
      exact Or.inl hx
    · rw [dictInsert, if_neg hk, List.map_cons] at hx
      rcases List.mem_cons.mp hx with h1 | h1
      · subst h1
        exact Or.inl (by rw [List.map_cons]; exact List.mem_cons_self _ _)
      · rcases ih h1 with h2 | h2
        · exact Or.inl (by rw [List.map_cons]; exact List.mem_cons_of_mem _ h2)
        · exact Or.inr h2

theorem dictInsert_keys_nodup (d : List (String × String)) (k v : String)
    (hd : (d.map Prod.fst).Nodup) :
    ((dictInsert d k v).map Prod.fst).Nodup := by
  induction d with
  | nil => simp [dictInsert]
  | cons p rest ih =>
    obtain ⟨k1, v1⟩ := p
    rw [List.map_cons, List.nodup_cons] at hd
    by_cases hk : k1 = k
    · rw [dictInsert, if_pos hk, List.map_cons, List.nodup_cons]
      exact hd
    · rw [dictInsert, if_neg hk, List.map_cons, List.nodup_cons]
      refine ⟨?_, ih hd.2⟩
      intro hmem
      rcases mem_keys_dictInsert rest k v k1 hmem with h2 | h2
      · exact hd.1 h2
      · exact hk h2

theorem lastSeenTitle_cons (r : ZEntry) (rest : List ZEntry) (h : String) :
    lastSeenTitle (r :: rest) h =
      match lastSeenTitle rest h with
      | some t => some t
      | none =>
        match r with
        | .notDict => none
        | .entry ih rt =>
          if rt = "" ∨ ih = "" then none else if ih = h then some rt else none := rfl

theorem zileanCollect_foldl_lookup (rs : List ZEntry) :
    ∀ (acc : List (String × String)) (h : String),
      dictLookup (rs.foldl zileanStep acc) h =
        match lastSeenTitle rs h with
        | some t => some t
        | none => dictLookup acc h := by
  induction rs with
  | nil => intro acc h; simp [lastSeenTitle]
  | cons r rest ih =>
    intro acc h
    rw [List.foldl_cons, ih, lastSeenTitle_cons]
    cases hl : lastSeenTitle rest h with
    | some t => simp
    | none =>
      simp only
      cases r with
      | notDict => simp [zileanStep]
      | entry ih2 rt =>
        by_cases hfal : rt = "" ∨ ih2 = ""
        · simp [zileanStep, hfal]
        · by_cases hih : ih2 = h
          · subst hih
            simp [zileanStep, hfal, dictLookup_dictInsert_self]
          · simp [zileanStep, hfal, hih,
              dictLookup_dictInsert_ne acc ih2 rt h (fun hh => hih hh.symm)]

theorem zileanCollect_foldl_keys_nodup (rs : List ZEntry) :
    ∀ acc : List (String × String), (acc.map Prod.fst).Nodup →
      ((rs.foldl zileanStep acc).map Prod.fst).Nodup := by
  induction rs with
  | nil => intro acc hacc; simpa using hacc
  | cons r rest ih =>
    intro acc hacc
    rw [List.foldl_cons]
    apply ih
    cases r with
    | notDict => simpa [zileanStep] using hacc
    | entry ih2 rt =>
      by_cases hfal : rt = "" ∨ ih2 = ""
      · simpa [zileanStep, hfal] using hacc
      · simpa [zileanStep, hfal] using dictInsert_keys_nodup acc ih2 rt hacc

/- ## Theorems for the scraper claims -/

/-- Counterexample for C5: a provider response whose results list holds two
entries with the same info_hash. The claim says the candidate map keeps the
first-seen title, but the scrape maps the hash to the second title. -/
theorem c5_first_seen_counterexample :
    dictLookup (zileanScrape (.data (.results
        [ZEntry.entry "h1" "Title A", ZEntry.entry "h1" "Title B"]))) "h1" =
      some "Title B" ∧
    dictLookup (zileanScrape (.data (.results
        [ZEntry.entry "h1" "Title A", ZEntry.entry "h1" "Title B"]))) "h1" ≠
      some "Title A" := by
  decide

/-- C5 amended: the candidate map contains each hash at most once, and maps it
to the LAST-seen valid title for that hash; later duplicates replace the
stored title. -/
theorem c5_keys_unique_last_seen (rs : List ZEntry) (h : String) :
    ((zileanScrape (.data (.results rs))).map Prod.fst).Nodup ∧
    dictLookup (zileanScrape (.data (.results rs))) h = lastSeenTitle rs h := by
  constructor
  · exact zileanCollect_foldl_keys_nodup rs [] (by simp)
  · show dictLookup (zileanCollect rs) h = lastSeenTitle rs h
    rw [zileanCollect, zileanCollect_foldl_lookup rs [] h]
    cases lastSeenTitle rs h <;> simp [dictLookup]

/-- C4: per-adapter failures are isolated. Zilean.run turns any exception of
its scrape into an empty dict and otherwise passes the scraped mapping
through; Sharewood.run returns exactly the mapping its scrape built (that
scrape catches every exception internally), so no exception propagates out of
run and a failing adapter contributes zero results. -/
theorem c4_run_isolates_failures (e : ZExc) (resp : ZResponse)
    (outcomes : List SWOutcome) (out : SWScrapeOut)
    (hterm : sharewoodScrape outcomes = some out) :
    zileanRun (Except.error e) = [] ∧
    zileanRun (Except.ok resp) = zileanScrape resp ∧
    sharewoodRun outcomes = some out.torrents := by
  refine ⟨rfl, rfl, ?_⟩
  simp [sharewoodRun, hterm]

/-- Witness for C4: a raising request outcome yields an empty mapping from
both adapters. -/
theorem c4_run_isolates_failures_witness :
    sharewoodScrape [SWOutcome.raise SWExc.other] = some ⟨0, 1, []⟩ ∧
    (zileanRun (Except.error ZExc.other) = [] ∧
     zileanRun (Except.ok ZResponse.notOkOrEmpty) = zileanScrape ZResponse.notOkOrEmpty ∧
     sharewoodRun [SWOutcome.raise SWExc.other] = some (SWScrapeOut.mk 0 1 []).torrents) :=
  ⟨rfl, c4_run_isolates_failures ZExc.other ZResponse.notOkOrEmpty
    [SWOutcome.raise SWExc.other] ⟨0, 1, []⟩ rfl⟩

/-- Counterexample for C3: two consecutive 429 responses followed by a data
response. The claim allows at most one retry (2 requests) before giving up for
the pass, but the code issues 3 requests, waits 5 seconds after each 429, and
returns the data of the third response. -/
theorem c3_retry_once_counterexample :
    sharewoodScrape
        [SWOutcome.resp ⟨429, some 5, false, none⟩,
         SWOutcome.resp ⟨429, some 5, false, none⟩,
         SWOutcome.resp ⟨200, none, true, some (ZResponseData.results [ZEntry.entry "h1" "T"])⟩] =
      some ⟨10, 3, [("h1", "T")]⟩ ∧
    ¬ sharewoodRetriesOnceClaim := by
  refine ⟨by decide, ?_⟩
  intro hcl
  have h3 := hcl
    [SWOutcome.resp ⟨429, some 5, false, none⟩,
     SWOutcome.resp ⟨429, some 5, false, none⟩,
     SWOutcome.resp ⟨200, none, true, some (ZResponseData.results [ZEntry.entry "h1" "T"])⟩]
    ⟨10, 3, [("h1", "T")]⟩ (by decide)
  exact absurd h3 (by decide)

/-- C3 amended: on an HTTP 429 response both Sharewood.scrape and Xthor.scrape
wait exactly the Retry-After value (30 seconds when the header is absent) and
retry the same query by calling themselves again, with no bound on the number
of retries: every further 429 triggers another wait and retry, so the adapter
does not give up after a single retry. -/
theorem c3_429_wait_and_retry_unbounded (r : SWResponse) (rest : List SWOutcome)
    (h429 : r.status_code = 429) :
    sharewoodScrape (SWOutcome.resp r :: rest) =
      (sharewoodScrape rest).map
        (fun s => ⟨r.retryAfter.getD 30 + s.waited, 1 + s.requests, s.torrents⟩) ∧
    xthorScrape (SWOutcome.resp r :: rest) =
      (xthorScrape rest).map
        (fun s => ⟨r.retryAfter.getD 30 + s.waited, 1 + s.requests, s.torrents⟩) := by
  constructor <;> simp [xthorScrape, sharewoodScrape, h429]

/-- Witness for the amended C3: a 429 with Retry-After 5 followed by a not-ok
response waits 5 seconds and issues 2 requests. -/
theorem c3_429_wait_and_retry_unbounded_witness :
    (SWResponse.mk 429 (some 5) false none).status_code = 429 ∧
    sharewoodScrape
        [SWOutcome.resp ⟨429, some 5, false, none⟩, SWOutcome.resp ⟨200, none, false, none⟩] =
      some ⟨5, 2, []⟩ ∧
    xthorScrape
        [SWOutcome.resp ⟨429, some 5, false, none⟩, SWOutcome.resp ⟨200, none, false, none⟩] =
      some ⟨5, 2, []⟩ := by
  have h := c3_429_wait_and_retry_unbounded ⟨429, some 5, false, none⟩
    [SWOutcome.resp ⟨200, none, false, none⟩] rfl
  refine ⟨rfl, ?_, ?_⟩
  · rw [h.1]; rfl
  · rw [h.2]; rfl

/-- The per-file predicate of contains_valid_video_files, rephrased as the
claim words it: the filename ends with some known video extension, and does
not contain sample case-insensitively. -/
theorem contains_valid_video_files_iff (videoExtensions : List String) (c : Container) :
    contains_valid_video_files videoExtensions c = true ↔
      ∀ f ∈ c, (∃ ext ∈ videoExtensions, f.filename.endsWith ext = true) ∧
        sampleIn f.filename = false := by
  unfold contains_valid_video_files
  rw [List.all_eq_true]
  constructor
  · intro h f hf
    have h2 := h f hf
    rw [List.any_eq_true] at h2
    obtain ⟨ext, hext, hcond⟩ := h2
    rw [Bool.and_eq_true] at hcond
    exact ⟨⟨ext, hext, hcond.1⟩, by simpa using hcond.2⟩
  · intro h f hf
    obtain ⟨⟨ext, hext, hend⟩, hsamp⟩ := h f hf
    rw [List.any_eq_true]
    refine ⟨ext, hext, ?_⟩
    rw [Bool.and_eq_true]
    exact ⟨hend, by simp [hsamp]⟩

/-- C6: a container is kept by filter_valid_containers iff it came from the
input and every contained file has a filename ending in a known video
extension and not containing sample case-insensitively; moreover every
container of the availability map returned to the caller satisfies the
predicate. -/
theorem c6_containers_kept_iff_valid (videoExtensions : List String)
    (containers : List Container) (c : Container) (entries : List (String × RDData)) :
    (c ∈ filter_valid_containers videoExtensions containers ↔
      c ∈ containers ∧ ∀ f ∈ c, (∃ ext ∈ videoExtensions, f.filename.endsWith ext = true) ∧
        sampleIn f.filename = false) ∧
    (∀ p ∈ availabilityResult videoExtensions entries, ∀ c2 ∈ p.2,
      contains_valid_video_files videoExtensions c2 = true) := by
  constructor
  · rw [filter_valid_containers, List.mem_insertionSort, List.mem_filter]
    rw [contains_valid_video_files_iff]
  · intro p hp c2 hc2
    rw [availabilityResult, List.mem_filterMap] at hp
    obtain ⟨e, he, heq⟩ := hp
    match hdat : e.2 with
    | RDData.lst => rw [hdat] at heq; simp at heq
    | RDData.other => rw [hdat] at heq; simp at heq
    | RDData.dct none => rw [hdat] at heq; simp at heq
    | RDData.dct (some rd) =>
      rw [hdat] at heq
      simp only [Option.some.injEq] at heq
      rw [← heq] at hc2
      simp only at hc2
      rw [filter_valid_containers, List.mem_insertionSort, List.mem_filter] at hc2
      exact hc2.2

/-- C7: the query parameter builder (identical in both zilean files) derives
season and episode from the position of the item in its tree: a whole show
yields season=1 and no episode, a season its own number and no episode, an
episode its parent season number and its own number, and a movie neither
parameter. -/
theorem c7_season_episode_derivation (t : String) (y : Option Int) (n pn : Nat) :
    build_query_params (.show t y) = ⟨t, y, some 1, none⟩ ∧
    build_query_params (.season n t y) = ⟨t, y, some n, none⟩ ∧
    build_query_params (.episode n pn t y) = ⟨t, y, some pn, some n⟩ ∧
    build_query_params (.movie t y) = ⟨t, y, none, none⟩ ∧
    build_query_params_legacy = build_query_params :=
  ⟨rfl, rfl, rfl, rfl, rfl⟩

/- ## Theorems for the rate limiter and event claims -/

theorem rl_admitted_bound_aux (maxCalls period t0 : Nat) :
    ∀ (ts : List Nat) (window : List Nat),
      (∀ t ∈ ts, t0 ≤ t ∧ t < t0 + period) →
      (∀ x ∈ window, t0 ≤ x) →
      window.length + rl_admitted maxCalls period window ts ≤
        max maxCalls window.length := by
  intro ts
  induction ts with
  | nil =>
    intro w hts hw
    simp [rl_admitted]
  | cons t rest ih =>
    intro w hts hw
    have hlive : w.filter (fun x => decide (t < x + period)) = w := by
      apply List.filter_eq_self.mpr
      intro x hx
      have h1 := hw x hx
      have h2 := (hts t (by simp)).2
      simp only [decide_eq_true_eq]
      omega
    by_cases hlen : w.length < maxCalls
    · have hacq : rl_acquire maxCalls period w t = (w ++ [t], true) := by
        rw [rl_acquire]
        simp only [hlive, if_pos hlen]
      have ihh := ih (w ++ [t])
        (fun x hx => hts x (by simp [hx]))
        (by
          intro x hx
          rcases List.mem_append.mp hx with hx2 | hx2
          · exact hw x hx2
          · have h1 := (hts t (by simp)).1
            simp at hx2
            omega)
      rw [List.length_append, List.length_cons, List.length_nil] at ihh
      have hmax1 : max maxCalls (w.length + 0 + 1) = maxCalls :=
        Nat.max_eq_left (by omega)
      rw [hmax1] at ihh
      have hmax2 : max maxCalls w.length = maxCalls := Nat.max_eq_left (by omega)
      rw [rl_admitted, hacq, hmax2]
      simp only [if_true]
      omega
    · have hacq : rl_acquire maxCalls period w t = (w, false) := by
        rw [rl_acquire]
        simp only [hlive, if_neg hlen]
      have ihh := ih w (fun x hx => hts x (by simp [hx])) hw
      rw [rl_admitted, hacq]
      simp only [Bool.false_eq_true, if_false]
      omega

/-- C8: a RateLimiter with an atomic check-and-increment over a sliding window
admits at most maxCalls of any maxCalls+1 calls that all arrive within one
period, whatever the interleaving of the concurrent callers (concurrency is
modelled as an arbitrary sequential order of atomic acquire operations). -/
theorem c8_rate_limiter_no_overshoot (maxCalls period t0 : Nat) (ts : List Nat)
    (hlen : ts.length = maxCalls + 1)
    (hwin : ∀ t ∈ ts, t0 ≤ t ∧ t < t0 + period) :
    rl_admitted maxCalls period [] ts ≤ maxCalls := by
  have h := rl_admitted_bound_aux maxCalls period t0 ts [] hwin (by simp)
  simpa using h

/-- Witness for C8: three calls at times 0, 1, 2 against maxCalls=2,
period=10. -/
theorem c8_rate_limiter_no_overshoot_witness :
    ([0, 1, 2] : List Nat).length = 2 + 1 ∧
    (∀ t ∈ ([0, 1, 2] : List Nat), 0 ≤ t ∧ t < 0 + 10) ∧
    rl_admitted 2 10 [] [0, 1, 2] ≤ 2 :=
  ⟨rfl, by decide, c8_rate_limiter_no_overshoot 2 10 0 [0, 1, 2] rfl (by decide)⟩

/-- C9: the run_at default of Event is the single datetime captured when the
dataclass definition was evaluated, so two Events constructed without an
explicit run_at at different times carry the identical run_at, and ordering
them by run_at cannot distinguish their creation order. -/
theorem c9_event_default_run_at_fixed (t0 : Nat) (s1 s2 : String) (i1 i2 : Int)
    (c1 c2 : Nat) :
    (eventMk t0 s1 i1 none c1).run_at = (eventMk t0 s2 i2 none c2).run_at ∧
    ¬ (eventMk t0 s1 i1 none c1).run_at < (eventMk t0 s2 i2 none c2).run_at := by
  simp [eventMk]

end Riven
